import Mathlib

/-!
Verification development for the `open-dev-activity` CLI.

The TypeScript sources are embedded shallowly:

* Instants are modelled as natural numbers of milliseconds since the Unix
  epoch, interpreted in UTC (1970-01-01 was a Thursday, so `dayjs().day()`
  of an instant `t` is `(t / msPerDay + 4) % 7`).  A `dayjs` value is just
  its underlying millisecond timestamp.
* `dayjs(x)` applied to a JavaScript `undefined` value yields the current
  wall-clock time; wherever the source can reach that case the model takes
  the clock as an explicit `now : Nat` parameter.
* JavaScript strings are Lean `String`s; nullable/optional fields are
  `Option`; the JavaScript falsiness test on a string (`s || d`,
  `if (!s) ...`) is modelled by treating `none` and the empty string as
  falsy (`jsOrStr`, `jsFirstTruthy`, `truthyStr`).
* `Array.prototype.sort` with a numeric comparator is a stable sort
  (ES2019); it is modelled by `List.insertionSort`, which is stable.
-/

/-! ### Basic JavaScript-semantics helpers -/

/-- Milliseconds in one hour. -/
def msPerHour : Nat := 3600000

/-- Milliseconds in one civil day. -/
def msPerDay : Nat := 86400000

/-- Calendar-day index of an instant (days since 1970-01-01, UTC). -/
def dayIndex (t : Nat) : Nat := t / msPerDay

/-- `dayjs(...).day()` for a day index: 0 = Sunday … 6 = Saturday.
1970-01-01 (day 0) was a Thursday (4). -/
def jsWeekday (d : Nat) : Nat := (d + 4) % 7

/-- JavaScript `o?.x || d` on an optional string: `none` and `""` are falsy. -/
def jsOrStr (o : Option String) (d : String) : String :=
  match o with
  | some s => if s = "" then d else s
  | none => d

/-- JavaScript truthiness of an optional string. -/
def truthyStr : Option String → Bool
  | some s => !(s == "")
  | none => false

/-- First truthy value of a JavaScript `a || b || … || dflt` chain. -/
def jsFirstTruthy : List (Option String) → String → String
  | [], dflt => dflt
  | o :: rest, dflt =>
    match o with
    | some s => if s = "" then jsFirstTruthy rest dflt else s
    | none => jsFirstTruthy rest dflt

/-- Left-pad a decimal rendering to two digits (`dayjs`/`toISOString` style). -/
def pad2 (n : Nat) : String := if n < 10 then "0" ++ Nat.repr n else Nat.repr n

/-- Left-pad a decimal rendering to four digits. -/
def pad4 (n : Nat) : String :=
  if n < 10 then "000" ++ Nat.repr n
  else if n < 100 then "00" ++ Nat.repr n
  else if n < 1000 then "0" ++ Nat.repr n
  else Nat.repr n

/-- Proleptic-Gregorian civil date `(year, month, day)` of a day index
(days since 1970-01-01), the standard era-based conversion used by
JavaScript date formatting. -/
def civilFromDays (z : Nat) : Nat × Nat × Nat :=
  let z' := z + 719468
  let era := z' / 146097
  let doe := z' % 146097
  let yoe := (doe - doe / 1460 + doe / 36524 - doe / 146096) / 365
  let y := yoe + era * 400
  let doy := doe - (365 * yoe + yoe / 4 - yoe / 100)
  let mp := (5 * doy + 2) / 153
  let d := doy - (153 * mp + 2) / 5 + 1
  let m := if mp < 10 then mp + 3 else mp - 9
  (if m ≤ 2 then y + 1 else y, m, d)

/-- `dayjs(t).format("YYYY-MM-DD")` (UTC) for a day index. -/
def formatDay (d : Nat) : String :=
  let c := civilFromDays d
  pad4 c.1 ++ "-" ++ pad2 c.2.1 ++ "-" ++ pad2 c.2.2

/-! ### `working-time.ts` -/

/-- `WorkingTimeConfig` from `src/cli/src/working-time.ts`.  Holidays are the
ISO `YYYY-MM-DD` strings compared against `current.format('YYYY-MM-DD')`. -/
structure WorkingTimeConfig where
  startHour : Nat
  endHour : Nat
  workingDays : List Nat
  holidays : List String
deriving DecidableEq

/-- `config.workingDays.includes(current.day()) &&
!config.holidays.includes(current.format('YYYY-MM-DD'))` for day index `d`. -/
def isWorkingDay (cfg : WorkingTimeConfig) (d : Nat) : Bool :=
  cfg.workingDays.contains (jsWeekday d) && !(cfg.holidays.contains (formatDay d))

/-- `current.startOf('day').add(config.startHour, 'hour')` for day index `d`. -/
def dayWindowStart (cfg : WorkingTimeConfig) (d : Nat) : Nat :=
  d * msPerDay + cfg.startHour * msPerHour

/-- `current.startOf('day').add(config.endHour, 'hour')` for day index `d`. -/
def dayWindowEnd (cfg : WorkingTimeConfig) (d : Nat) : Nat :=
  d * msPerDay + cfg.endHour * msPerHour

/-- One iteration body of the `calculateWorkingTime` day loop: the
milliseconds contributed by the day of `current`, where `current` is the
loop cursor and `endT` the overall end instant. -/
def dayContrib (cfg : WorkingTimeConfig) (endT current : Nat) : Nat :=
  if isWorkingDay cfg (dayIndex current) then
    let dayStart := dayWindowStart cfg (dayIndex current)
    let dayEnd := dayWindowEnd cfg (dayIndex current)
    let overlapStart := if dayStart < current then current else dayStart
    let overlapEnd := if endT < dayEnd then endT else dayEnd
    if overlapStart < overlapEnd then overlapEnd - overlapStart else 0
  else 0

/-- The `while (current.isBefore(endDate) || current.isSame(endDate, 'day'))`
loop of `calculateWorkingTime`, with the cursor `current` explicit and a fuel
argument bounding the number of iterations (the caller passes one unit per
calendar day of the span, which is exactly how often the loop runs). -/
def calcLoop (cfg : WorkingTimeConfig) (endT : Nat) : Nat → Nat → Nat
  | _, 0 => 0
  | current, fuel + 1 =>
    if current < endT || dayIndex current == dayIndex endT then
      if dayIndex current == dayIndex endT then dayContrib cfg endT current
      else dayContrib cfg endT current + calcLoop cfg endT ((dayIndex current + 1) * msPerDay) fuel
    else 0

/-- `calculateWorkingTime` from `src/cli/src/working-time.ts`: working
milliseconds between `start` and `endT` under calendar `cfg`. -/
def calculateWorkingTime (start endT : Nat) (cfg : WorkingTimeConfig) : Nat :=
  if endT < start then 0
  else calcLoop cfg endT start (dayIndex endT - dayIndex start + 1)

/-- Overlap, in milliseconds, of `[s, e]` with the working window of day `d`
(zero on non-working days).  This follows the spec's wording of the
algorithm; `Nat` subtraction truncates at zero, giving the clamped overlap
length. -/
def overlapOnDay (cfg : WorkingTimeConfig) (s e d : Nat) : Nat :=
  if isWorkingDay cfg d then
    min e (dayWindowEnd cfg d) - max s (dayWindowStart cfg d)
  else 0

/-- Day-by-day sum stated by the spec: total overlap of `[s, e]` with the
working windows of every calendar day from `s`'s day to `e`'s day. -/
def workingTimeSpec (s e : Nat) (cfg : WorkingTimeConfig) : Nat :=
  ∑ d ∈ Finset.Icc (dayIndex s) (dayIndex e), overlapOnDay cfg s e d

/-! #### Working-time lemmas -/

theorem dayIndex_le_dayIndex {s e : Nat} (h : s ≤ e) : dayIndex s ≤ dayIndex e :=
  Nat.div_le_div_right h

theorem lt_of_dayIndex_lt {s e : Nat} (h : dayIndex s < dayIndex e) : s < e := by
  by_contra hc
  exact absurd (dayIndex_le_dayIndex (Nat.le_of_not_lt hc)) (Nat.not_le_of_lt h)

theorem dayIndex_mul (k : Nat) : dayIndex (k * msPerDay) = k := by
  unfold dayIndex msPerDay
  omega

theorem lt_succ_day_mul (c : Nat) : c < (dayIndex c + 1) * msPerDay := by
  unfold dayIndex msPerDay
  omega

theorem day_mul_le (c : Nat) : dayIndex c * msPerDay ≤ c := by
  unfold dayIndex msPerDay
  omega

/-- The loop body computes exactly the spec's per-day overlap, provided the
cursor is either the original start instant or the midnight start of a later
day. -/
theorem dayContrib_eq_overlap (cfg : WorkingTimeConfig) (e s c : Nat)
    (h : c = s ∨ (s ≤ c ∧ c = dayIndex c * msPerDay)) :
    dayContrib cfg e c = overlapOnDay cfg s e (dayIndex c) := by
  unfold dayContrib overlapOnDay
  cases hw : isWorkingDay cfg (dayIndex c)
  · simp
  · simp only [if_true]
    have hds : dayIndex c * msPerDay ≤ dayWindowStart cfg (dayIndex c) := by
      unfold dayWindowStart; omega
    rcases h with h | ⟨h1, h2⟩
    · subst h
      simp only [Nat.min_def, Nat.max_def]
      split_ifs <;> omega
    · simp only [Nat.min_def, Nat.max_def]
      split_ifs <;> omega

theorem Icc_eq_insert_Icc {a b : Nat} (h : a ≤ b) :
    Finset.Icc a b = insert a (Finset.Icc (a + 1) b) := by
  ext x
  simp only [Finset.mem_Icc, Finset.mem_insert]
  omega

/-- The day loop computes the spec's day-by-day sum. -/
theorem calcLoop_eq_sum (cfg : WorkingTimeConfig) (e s : Nat) :
    ∀ (fuel c : Nat), dayIndex c ≤ dayIndex e →
      fuel = dayIndex e - dayIndex c + 1 →
      (c = s ∨ (s ≤ c ∧ c = dayIndex c * msPerDay)) →
      calcLoop cfg e c fuel = ∑ d ∈ Finset.Icc (dayIndex c) (dayIndex e), overlapOnDay cfg s e d := by
  intro fuel
  induction fuel with
  | zero => intro c hle hfuel _; omega
  | succ n ih =>
    intro c hle hfuel hform
    rcases Nat.eq_or_lt_of_le hle with heq | hlt
    · have hbeq : (dayIndex c == dayIndex e) = true := by simp [heq]
      simp only [calcLoop, hbeq, Bool.or_true, if_true]
      rw [dayContrib_eq_overlap cfg e s c hform, heq, Finset.Icc_self, Finset.sum_singleton]
    · have hclt : c < e := by
        have h1 : c < (dayIndex c + 1) * msPerDay := lt_succ_day_mul c
        have h2 : (dayIndex c + 1) * msPerDay ≤ dayIndex e * msPerDay :=
          Nat.mul_le_mul_right _ hlt
        exact Nat.lt_of_lt_of_le (Nat.lt_of_lt_of_le h1 h2) (day_mul_le e)
      have hnextday : dayIndex ((dayIndex c + 1) * msPerDay) = dayIndex c + 1 :=
        dayIndex_mul _
      have hform' : (dayIndex c + 1) * msPerDay = s ∨
          (s ≤ (dayIndex c + 1) * msPerDay ∧
            (dayIndex c + 1) * msPerDay = dayIndex ((dayIndex c + 1) * msPerDay) * msPerDay) := by
        refine Or.inr ⟨?_, by rw [hnextday]⟩
        rcases hform with h | ⟨h1, _⟩
        · subst h; exact Nat.le_of_lt (lt_succ_day_mul c)
        · exact Nat.le_trans h1 (Nat.le_of_lt (lt_succ_day_mul c))
      have hrec := ih ((dayIndex c + 1) * msPerDay) (by rw [hnextday]; omega)
        (by rw [hnextday]; omega) hform'
      rw [hnextday] at hrec
      simp only [calcLoop]
      rw [if_pos (by simp [hclt]), if_neg (by simp [Nat.ne_of_lt hlt]), hrec,
        dayContrib_eq_overlap cfg e s c hform, Icc_eq_insert_Icc (Nat.le_of_lt hlt),
        Finset.sum_insert (by simp)]

/-- `calculateWorkingTime` equals the spec's day-by-day overlap sum whenever
the interval is well ordered. -/
theorem calculateWorkingTime_eq_daySum (cfg : WorkingTimeConfig) {s e : Nat} (h : s ≤ e) :
    calculateWorkingTime s e cfg = workingTimeSpec s e cfg := by
  unfold calculateWorkingTime workingTimeSpec
  rw [if_neg (by omega)]
  exact calcLoop_eq_sum cfg e s _ s (dayIndex_le_dayIndex h) rfl (Or.inl rfl)

/-- Per-day additivity of the overlap: splitting the interval `[a, c]` at
any `b` between `a` and `c` splits the overlap with one day's window. -/
theorem overlapOnDay_split (cfg : WorkingTimeConfig) {a b c : Nat} (d : Nat)
    (hab : a ≤ b) (hbc : b ≤ c) :
    overlapOnDay cfg a c d = overlapOnDay cfg a b d + overlapOnDay cfg b c d := by
  unfold overlapOnDay
  cases isWorkingDay cfg d
  · simp
  · simp only [if_true]
    simp only [Nat.min_def, Nat.max_def]
    split_ifs <;> omega

/-- A day whose midnight lies at or after the interval end contributes no
overlap. -/
theorem overlapOnDay_eq_zero_right (cfg : WorkingTimeConfig) {x y d : Nat}
    (h : y ≤ d * msPerDay) : overlapOnDay cfg x y d = 0 := by
  unfold overlapOnDay dayWindowStart dayWindowEnd
  cases isWorkingDay cfg d
  · simp
  · simp only [if_true]
    omega

/-- With a daily window that stays inside the day (`endHour ≤ 24`), a day
that ends at or before the interval start contributes no overlap. -/
theorem overlapOnDay_eq_zero_left (cfg : WorkingTimeConfig) (hE : cfg.endHour ≤ 24)
    {x y d : Nat} (h : (d + 1) * msPerDay ≤ x) : overlapOnDay cfg x y d = 0 := by
  unfold overlapOnDay dayWindowStart dayWindowEnd
  cases isWorkingDay cfg d
  · simp
  · simp only [if_true]
    have : cfg.endHour * msPerHour ≤ 24 * msPerHour := Nat.mul_le_mul_right _ hE
    unfold msPerDay msPerHour at *
    omega

/-- Additivity of `calculateWorkingTime` under splitting, for calendars whose
`endHour` is at most 24 (so that no day's window spills into later days). -/
theorem calculateWorkingTime_add (cfg : WorkingTimeConfig) (hE : cfg.endHour ≤ 24)
    {a b c : Nat} (hab : a ≤ b) (hbc : b ≤ c) :
    calculateWorkingTime a c cfg =
      calculateWorkingTime a b cfg + calculateWorkingTime b c cfg := by
  rw [calculateWorkingTime_eq_daySum cfg (Nat.le_trans hab hbc),
    calculateWorkingTime_eq_daySum cfg hab, calculateWorkingTime_eq_daySum cfg hbc]
  unfold workingTimeSpec
  rw [Finset.sum_congr rfl (fun d _ => overlapOnDay_split cfg d hab hbc),
    Finset.sum_add_distrib]
  congr 1
  · symm
    apply Finset.sum_subset
    · exact Finset.Icc_subset_Icc (Nat.le_refl _) (dayIndex_le_dayIndex hbc)
    · intro x hx hnx
      simp only [Finset.mem_Icc] at hx hnx
      have hgt : dayIndex b < x := by omega
      apply overlapOnDay_eq_zero_right
      have h1 : b < (dayIndex b + 1) * msPerDay := lt_succ_day_mul b
      have h2 : (dayIndex b + 1) * msPerDay ≤ x * msPerDay := Nat.mul_le_mul_right _ hgt
      omega
  · symm
    apply Finset.sum_subset
    · exact Finset.Icc_subset_Icc (dayIndex_le_dayIndex hab) (Nat.le_refl _)
    · intro x hx hnx
      simp only [Finset.mem_Icc] at hx hnx
      have hlt : x < dayIndex b := by omega
      apply overlapOnDay_eq_zero_left cfg hE
      have h2 : (x + 1) * msPerDay ≤ dayIndex b * msPerDay := Nat.mul_le_mul_right _ hlt
      have h3 : dayIndex b * msPerDay ≤ b := day_mul_le b
      omega

/-! ### `getWorkingTimeConfig` and its environment -/

/-- Split a character list at every occurrence of a separator character
(JavaScript `String.prototype.split` with a one-character separator),
structured on fuel so that it evaluates by kernel reduction. -/
def splitCharAux (sep : Char) : Nat → List Char → List Char → List (List Char)
  | 0, l, acc => [acc.reverse ++ l]
  | _ + 1, [], acc => [acc.reverse]
  | fuel + 1, ch :: rest, acc =>
    if ch = sep then acc.reverse :: splitCharAux sep fuel rest []
    else splitCharAux sep fuel rest (ch :: acc)

/-- JavaScript `s.split(sep)` for a one-character separator. -/
def splitChar (sep : Char) (s : String) : List String :=
  (splitCharAux sep s.data.length s.data []).map String.mk

/-- JavaScript `String.prototype.trim` restricted to ASCII blanks. -/
def trimSpaces (s : String) : String :=
  String.mk (((s.data.dropWhile (· = ' ')).reverse.dropWhile (· = ' ')).reverse)

/-- Decimal value of the leading digit run of a character list. -/
def leadingDigitsVal : List Char → Nat → Nat
  | [], acc => acc
  | ch :: rest, acc =>
    if ch.isDigit then leadingDigitsVal rest (acc * 10 + (ch.toNat - 48)) else acc

/-- `parseInt(s, 10)` on the strings the configuration actually carries
(decimal digit runs; the `NaN` result for non-numeric input is outside the
modelled domain and is rendered as 0). -/
def jsParseInt (s : String) : Nat := leadingDigitsVal s.data 0

/-- The `process.env` slice read by `getWorkingTimeConfig`; `none` models an
unset variable. -/
structure WorkingTimeEnv where
  WORKING_START_HOUR : Option String
  WORKING_END_HOUR : Option String
  WORKING_DAYS : Option String
  HOLIDAYS : Option String
deriving DecidableEq

/-- `getWorkingTimeConfig` from `src/cli/src/working-time.ts`: parses the
environment with defaults `9`, `17`, `1,2,3,4,5` and no holidays.  Note that
it performs no validation whatsoever. -/
def getWorkingTimeConfig (env : WorkingTimeEnv) : WorkingTimeConfig :=
  { startHour := jsParseInt (jsOrStr env.WORKING_START_HOUR "9")
    endHour := jsParseInt (jsOrStr env.WORKING_END_HOUR "17")
    workingDays :=
      (splitChar ',' (jsOrStr env.WORKING_DAYS "1,2,3,4,5")).map
        (fun v => jsParseInt (trimSpaces v))
    holidays :=
      ((splitChar ',' (jsOrStr env.HOLIDAYS "")).map trimSpaces).filter
        (fun s => !(s == "")) }

/-- The configuration obtained from an empty environment: Monday–Friday,
09:00–17:00, no holidays. -/
def defaultWorkingConfig : WorkingTimeConfig :=
  getWorkingTimeConfig ⟨none, none, none, none⟩

example : defaultWorkingConfig = ⟨9, 17, [1, 2, 3, 4, 5], []⟩ := by decide

example : formatDay 0 = "1970-01-01" := by decide

example : formatDay 20158 = "2025-03-11" := by decide

/-! ### Further working-time facts used by the claims -/

/-- A degenerate calendar (inverted hours or no working weekdays) makes
`calculateWorkingTime` identically zero: the program computes on, it never
fails. -/
theorem calculateWorkingTime_degenerate (cfg : WorkingTimeConfig)
    (h : cfg.endHour ≤ cfg.startHour ∨ cfg.workingDays = []) (s e : Nat) :
    calculateWorkingTime s e cfg = 0 := by
  rcases Nat.lt_or_ge e s with hlt | hge
  · unfold calculateWorkingTime
    rw [if_pos hlt]
  · rw [calculateWorkingTime_eq_daySum cfg hge]
    unfold workingTimeSpec
    apply Finset.sum_eq_zero
    intro d _
    unfold overlapOnDay
    rcases h with h | h
    · cases isWorkingDay cfg d
      · simp
      · simp only [if_true]
        unfold dayWindowStart dayWindowEnd
        have : cfg.endHour * msPerHour ≤ cfg.startHour * msPerHour :=
          Nat.mul_le_mul_right _ h
        omega
    · have hw : isWorkingDay cfg d = false := by
        unfold isWorkingDay
        rw [h]
        rfl
      simp [hw]

/-! ### Part 1 of the claim theorems: the working-time calculator -/

/-- C2: for every calendar, `calculateWorkingTime` returns 0 whenever
`end ≤ start`, and its result is never negative (the model's durations live
in `Nat`, mirroring that every accumulated summand is a guarded positive
difference). -/
theorem C2_elapsed_zero_when_end_le_start (cfg : WorkingTimeConfig) (s e : Nat) :
    (e ≤ s → calculateWorkingTime s e cfg = 0) ∧ 0 ≤ calculateWorkingTime s e cfg := by
  refine ⟨fun h => ?_, Nat.zero_le _⟩
  rcases Nat.lt_or_ge e s with hlt | hge
  · unfold calculateWorkingTime
    rw [if_pos hlt]
  · have heq : e = s := Nat.le_antisymm h hge
    subst heq
    rw [calculateWorkingTime_eq_daySum cfg (Nat.le_refl e)]
    unfold workingTimeSpec
    rw [Finset.Icc_self, Finset.sum_singleton]
    unfold overlapOnDay
    cases isWorkingDay cfg (dayIndex e)
    · simp
    · simp only [if_true]
      omega

theorem C2_elapsed_zero_when_end_le_start_witness :
    calculateWorkingTime 5 3 defaultWorkingConfig = 0 :=
  (C2_elapsed_zero_when_end_le_start defaultWorkingConfig 5 3).1 (by decide)

/-- C3: for `start ≤ end`, `calculateWorkingTime` equals the day-by-day sum
of overlaps of `[start, end]` with each working day's `[startHour, endHour]`
window, non-working days and holidays contributing zero. -/
theorem C3_workingTime_is_daySum (cfg : WorkingTimeConfig) (s e : Nat) (h : s ≤ e) :
    calculateWorkingTime s e cfg = workingTimeSpec s e cfg :=
  calculateWorkingTime_eq_daySum cfg h

/-- 1970-01-02 was a Friday; 16:00 UTC on it. -/
def friday16 : Nat := msPerDay + 16 * msPerHour

/-- 1970-01-05 was a Monday; 10:00 UTC on it. -/
def monday10 : Nat := 4 * msPerDay + 10 * msPerHour

theorem C3_workingTime_is_daySum_witness :
    calculateWorkingTime friday16 monday10 defaultWorkingConfig =
      workingTimeSpec friday16 monday10 defaultWorkingConfig ∧
    calculateWorkingTime friday16 monday10 defaultWorkingConfig = 2 * msPerHour :=
  ⟨C3_workingTime_is_daySum defaultWorkingConfig friday16 monday10 (by decide), by decide⟩

/-- A calendar whose `endHour` (48) spills each day's window into the two
following days; legal for the source's unvalidated `WorkingTimeConfig`. -/
def spillingConfig : WorkingTimeConfig := ⟨0, 48, [0, 1, 2, 3, 4, 5, 6], []⟩

/-- C10 counterexample: with the spilling calendar above, cutting the span
`[0, 2 days]` at day 1 loses the second day's double-counted window, so
additivity fails for that calendar — the claim's "every calendar" is too
strong. -/
theorem C10_counterexample_spilling_calendar :
    calculateWorkingTime 0 (2 * msPerDay) spillingConfig ≠
      calculateWorkingTime 0 msPerDay spillingConfig +
        calculateWorkingTime msPerDay (2 * msPerDay) spillingConfig := by decide

/-- C10 (amended): `calculateWorkingTime` is additive under splitting at any
intermediate instant, for every calendar whose `endHour` is at most 24 —
i.e. whose daily window stays inside the day, as the spec's 0–23 range for
hours guarantees. -/
theorem C10_workingTime_additive (cfg : WorkingTimeConfig) (hE : cfg.endHour ≤ 24)
    {a b c : Nat} (hab : a ≤ b) (hbc : b ≤ c) :
    calculateWorkingTime a c cfg =
      calculateWorkingTime a b cfg + calculateWorkingTime b c cfg :=
  calculateWorkingTime_add cfg hE hab hbc

theorem C10_workingTime_additive_witness :
    calculateWorkingTime 0 (10 * msPerDay) defaultWorkingConfig =
      calculateWorkingTime 0 (3 * msPerDay + 5) defaultWorkingConfig +
        calculateWorkingTime (3 * msPerDay + 5) (10 * msPerDay) defaultWorkingConfig :=
  C10_workingTime_additive defaultWorkingConfig (by decide) (by decide) (by decide)

/-- The environment of C8's counterexample: start hour 17, end hour 9. -/
def invalidHoursEnv : WorkingTimeEnv := ⟨some "17", some "9", none, none⟩

/-- C8 counterexample: an inverted calendar (`startHour 17 ≥ endHour 9`)
passes `getWorkingTimeConfig` untouched — there is no validation and no
failure path — and `calculateWorkingTime` then quietly computes with it,
so the program does not fail fast on misconfiguration. -/
theorem C8_counterexample_no_validation :
    (getWorkingTimeConfig invalidHoursEnv).endHour ≤
      (getWorkingTimeConfig invalidHoursEnv).startHour ∧
    getWorkingTimeConfig invalidHoursEnv = ⟨17, 9, [1, 2, 3, 4, 5], []⟩ ∧
    calculateWorkingTime 0 (5 * msPerDay) (getWorkingTimeConfig invalidHoursEnv) = 0 := by
  decide

/-- C8 (amended): the program performs no calendar validation; a
misconfigured calendar (inverted hours or empty working-day list) is
accepted and every duration computed with it is 0 rather than an error. -/
theorem C8_degenerate_calendar_yields_zero (cfg : WorkingTimeConfig)
    (h : cfg.endHour ≤ cfg.startHour ∨ cfg.workingDays = []) (s e : Nat) :
    calculateWorkingTime s e cfg = 0 :=
  calculateWorkingTime_degenerate cfg h s e

theorem C8_degenerate_calendar_yields_zero_witness :
    calculateWorkingTime 3 999999999 (getWorkingTimeConfig invalidHoursEnv) = 0 :=
  C8_degenerate_calendar_yields_zero (getWorkingTimeConfig invalidHoursEnv)
    (Or.inl (by decide)) 3 999999999

/-! ### Shared status-duration data -/

/-- `StatusDuration` — `{ status, durationMs }`. -/
structure StatusDuration where
  status : String
  durationMs : Nat
deriving DecidableEq

/-- Total of the `durationMs` fields of a status-duration list. -/
def sumDurations (l : List StatusDuration) : Nat := (l.map (·.durationMs)).sum

/-- `const existing = statusDurations.find(sd => sd.status === st); if
(existing) existing.durationMs += d; else statusDurations.push({...})`:
add `d` to the first entry with the given status, or append a new entry. -/
def addDuration : List StatusDuration → String → Nat → List StatusDuration
  | [], st, d => [⟨st, d⟩]
  | x :: xs, st, d =>
    if x.status = st then ⟨x.status, x.durationMs + d⟩ :: xs
    else x :: addDuration xs st d

theorem sumDurations_addDuration (l : List StatusDuration) (st : String) (d : Nat) :
    sumDurations (addDuration l st d) = sumDurations l + d := by
  induction l with
  | nil => simp [addDuration, sumDurations]
  | cons x xs ih =>
    unfold addDuration
    by_cases hx : x.status = st
    · simp only [hx, if_pos rfl]
      simp [sumDurations]
      omega
    · rw [if_neg hx]
      simp only [sumDurations, List.map_cons, List.sum_cons] at *
      omega

/-! ### The `fetch-issues` timeline processor (`src/unnamed/part_008`) -/

/-- A raw GraphQL timeline event as `part_008`'s `processItem` reads it:
every field is optional, `none` standing for a JavaScript `undefined`.
`statusName` and `previousStatus` model `event.status` and
`event.previousStatus` of a `ProjectV2ItemStatusChangedEvent`. -/
structure P8TimelineEvent where
  typename : Option String
  createdAt : Option Nat
  actor : Option String
  label : Option String
  assignee : Option String
  projectColumnName : Option String
  previousStatus : Option String
  statusName : Option String
deriving DecidableEq

/-- `IssueHistoryItem` as `part_008` builds it.  `when` is optional because
the source copies `event.createdAt` without checking it. -/
structure P8HistoryItem where
  type : String
  action : String
  value : Option String
  who : String
  when : Option Nat
deriving DecidableEq

/-- Fuel-structured splitting of a character list at every occurrence of the
four-character separator `" -> "` (JavaScript `value.split(' -> ')`). -/
def splitArrowAux : Nat → List Char → List Char → List (List Char)
  | 0, l, acc => [acc.reverse ++ l]
  | _ + 1, [], acc => [acc.reverse]
  | fuel + 1, ch :: rest, acc =>
    if [' ', '-', '>', ' '].isPrefixOf (ch :: rest) then
      acc.reverse :: splitArrowAux fuel ((ch :: rest).drop 4) []
    else splitArrowAux fuel rest (ch :: acc)

/-- JavaScript `v.split(' -> ')`. -/
def splitArrow (v : String) : List String :=
  (splitArrowAux v.data.length v.data []).map String.mk

/-- JavaScript `v.includes(' -> ')`: the split produced at least two parts. -/
def hasArrow (v : String) : Bool := 2 ≤ (splitArrow v).length

/-- `event.value?.includes(' -> ')` on an optional value. -/
def optHasArrow : Option String → Bool
  | some v => hasArrow v
  | none => false

/-- The event loop of `part_008`'s `processItem` (lines 136–193): which
history item, if any, one timeline event contributes.  Unmatched
`__typename`s (including a missing one) fall through to no item. -/
def p8HistoryOfEvent (e : P8TimelineEvent) : Option P8HistoryItem :=
  match e.typename with
  | some "MovedColumnsInProjectEvent" =>
    some ⟨"status", "changed status to", e.projectColumnName, jsOrStr e.actor "Unknown", e.createdAt⟩
  | some "LabeledEvent" =>
    some ⟨"label", "added label", e.label, jsOrStr e.actor "Unknown", e.createdAt⟩
  | some "ClosedEvent" =>
    some ⟨"state_change", "closed", none, jsOrStr e.actor "Unknown", e.createdAt⟩
  | some "ReopenedEvent" =>
    some ⟨"state_change", "reopened", none, jsOrStr e.actor "Unknown", e.createdAt⟩
  | some "AssignedEvent" =>
    some ⟨"assignment", "assigned", e.assignee, jsOrStr e.actor "Unknown", e.createdAt⟩
  | some "UnassignedEvent" =>
    some ⟨"assignment", "unassigned", e.assignee, jsOrStr e.actor "Unknown", e.createdAt⟩
  | some "ProjectV2ItemStatusChangedEvent" =>
    some ⟨"status", "changed status",
      some (e.previousStatus.getD "undefined" ++ " -> " ++ e.statusName.getD "undefined"),
      jsOrStr e.actor "Unknown", e.createdAt⟩
  | _ => none

/-- Millisecond sort/walk key of a history item: `dayjs(h.when)`, where a
missing `when` is JavaScript `dayjs(undefined)`, i.e. the current clock. -/
def p8EventKey (now : Nat) (h : P8HistoryItem) : Nat := h.when.getD now

/-- `history.filter(h => h.type === 'status').sort(by when)` (stable). -/
def p8StatusHistory (now : Nat) (history : List P8HistoryItem) : List P8HistoryItem :=
  List.insertionSort (fun a b => p8EventKey now a ≤ p8EventKey now b)
    (history.filter (fun h => h.type == "status"))

/-- The initial `currentStatus` of the duration walk: `'Initial'`, except
that a first event of the form `A -> B` reveals the previous status `A`. -/
def p8InitialStatus (statusHistory : List P8HistoryItem) : String :=
  match statusHistory with
  | [] => "Initial"
  | f :: _ =>
    if f.action == "changed status" && optHasArrow f.value then
      ((splitArrow (f.value.getD "")).getD 0 "")
    else "Initial"

/-- The `currentStatus` update at the end of each walk step:
`A -> B` events switch to `B`, otherwise `event.value || currentStatus`. -/
def p8NextStatus (e : P8HistoryItem) (cur : String) : String :=
  if e.action == "changed status" && optHasArrow e.value then
    ((splitArrow (e.value.getD "")).getD 1 "")
  else jsOrStr e.value cur

/-- The `statusHistory.forEach` duration walk of `part_008`'s `processItem`
plus the final open interval to `reportToDate`: folds over the sorted status
events, closing each interval with `calculateWorkingTime` and accumulating
positive durations per status name. -/
def p8Walk (cfg : WorkingTimeConfig) (now toDate : Nat) :
    Nat → String → List StatusDuration → List P8HistoryItem → List StatusDuration
  | lastTime, currentStatus, durs, [] =>
    let finalD := calculateWorkingTime lastTime toDate cfg
    if 0 < finalD then addDuration durs currentStatus finalD else durs
  | lastTime, currentStatus, durs, ev :: rest =>
    let eventTime := p8EventKey now ev
    let d := calculateWorkingTime lastTime eventTime cfg
    p8Walk cfg now toDate eventTime (p8NextStatus ev currentStatus)
      (if 0 < d then addDuration durs currentStatus d else durs) rest

/-- The `item.content` fields `part_008`'s `processItem` consumes. -/
structure P8Content where
  isIssue : Bool
  createdAt : Option Nat
  updatedAt : Option Nat
deriving DecidableEq

/-- The parts of `ProcessedIssue` that depend on the timeline events.  The
other fields (`id`, `number`, `title`, `url`, `status`, `assignees`,
`labels`, `updatedAt`) are verbatim copies of the input item and are
omitted from the model. -/
structure P8Processed where
  history : List P8HistoryItem
  statusDurations : List StatusDuration
deriving DecidableEq

/-- `processItem` from `src/unnamed/part_008` (the `fetch-issues` command):
builds the history from the timeline events (only for issues), extracts and
sorts the status events, and walks them accumulating working-time status
durations from `content.createdAt` (falling back to `updatedAt`, then the
clock) up to `reportToDate`.  The source also annotates each positive-
duration status history item in place with its `durationMs`; that
display-only mutation affects neither the set of history items nor the
status durations and is not modelled. -/
def processItemP8 (cfg : WorkingTimeConfig) (now toDate : Nat)
    (content : P8Content) (events : List P8TimelineEvent) : P8Processed :=
  let history := if content.isIssue then events.filterMap p8HistoryOfEvent else []
  let statusHistory := p8StatusHistory now history
  let lastTime0 :=
    match content.createdAt with
    | some t => t
    | none => content.updatedAt.getD now
  ⟨history, p8Walk cfg now toDate lastTime0 (p8InitialStatus statusHistory) [] statusHistory⟩

/-! ### The core issue processor (`src/cli/src/core/issue-processor.ts`) -/

/-- A raw timeline event as `processTimelineEvent` reads it. -/
structure IPEvent where
  typename : Option String
  createdAt : Option Nat
  actor : Option String
  label : Option String
  assignee : Option String
deriving DecidableEq

/-- `IssueHistoryItem` of the core processor; after the malformedness guard
`when` is always present.  `durationMs` stays `none` (the only code that
sets it iterates the never-populated `statusHistory`). -/
structure IPHistoryItem where
  type : String
  action : String
  value : Option String
  who : String
  when : Nat
  durationMs : Option Nat
deriving DecidableEq

/-- The `switch (event.__typename)` of `processTimelineEvent`, after the
guard has established a non-empty typename and a timestamp. -/
def ipDispatch (ty : String) (t : Nat) (e : IPEvent) : Option IPHistoryItem :=
  match ty with
  | "ClosedEvent" =>
    some ⟨"state_change", "closed", some "closed", jsOrStr e.actor "unknown", t, none⟩
  | "ReopenedEvent" =>
    some ⟨"state_change", "reopened", some "open", jsOrStr e.actor "unknown", t, none⟩
  | "LabeledEvent" =>
    some ⟨"label", "labeled", e.label, jsOrStr e.actor "unknown", t, none⟩
  | "UnlabeledEvent" =>
    some ⟨"label", "unlabeled", e.label, jsOrStr e.actor "unknown", t, none⟩
  | "AssignedEvent" =>
    some ⟨"assignment", "assigned", e.assignee, jsOrStr e.actor "unknown", t, none⟩
  | "UnassignedEvent" =>
    some ⟨"assignment", "unassigned", e.assignee, jsOrStr e.actor "unknown", t, none⟩
  | _ => none

/-- `processTimelineEvent` from `issue-processor.ts`: `null` on a missing
(or empty, hence falsy) `__typename`, a missing `createdAt`, or an
unrecognized event type. -/
def processTimelineEvent (e : IPEvent) : Option IPHistoryItem :=
  match e.typename, e.createdAt with
  | some ty, some t => if ty = "" then none else ipDispatch ty t e
  | _, _ => none

/-- An entry of the `statusHistory` array of `issue-processor.ts`. -/
structure StatusHistEntry where
  status : String
  when : Nat
  who : String
deriving DecidableEq

/-- The index loop of `calculateStatusDurations`: raw wall-clock differences
between consecutive status changes (the last one measured against `toDate`),
keeping only positive durations.  The difference is an integer in the
source (`dayjs.diff`), so it is taken in `Int` before the positivity test. -/
def csdAux (toDate : Nat) : List StatusHistEntry → List StatusDuration
  | [] => []
  | [last] =>
    let d : Int := (toDate : Int) - (last.when : Int)
    if 0 < d then [⟨last.status, d.toNat⟩] else []
  | cur :: next :: rest =>
    let d : Int := (next.when : Int) - (cur.when : Int)
    let tail := csdAux toDate (next :: rest)
    if 0 < d then ⟨cur.status, d.toNat⟩ :: tail else tail

/-- `calculateStatusDurations` from `issue-processor.ts` (the `if
(statusHistory.length === 0) return []` early exit coincides with the
recursion's base case). -/
def calculateStatusDurations (statusHistory : List StatusHistEntry) (toDate : Nat) :
    List StatusDuration :=
  csdAux toDate statusHistory

/-- The event-dependent parts of the core processor's `ProcessedIssue`;
identity fields copied from the input item are omitted from the model. -/
structure IPProcessed where
  history : List IPHistoryItem
  statusDurations : List StatusDuration
deriving DecidableEq

/-- `processItem` from `issue-processor.ts`: maps the timeline events
through `processTimelineEvent`, appends the items derived from
`statusHistory` — an array that is declared but never written, so nothing
is appended and `calculateStatusDurations` always receives `[]` — and sorts
the history chronologically (stable). -/
def processItemIP (toDate : Nat) (events : List IPEvent) : IPProcessed :=
  let statusHistory : List StatusHistEntry := []
  let history := events.filterMap processTimelineEvent
  ⟨List.insertionSort (fun a b => a.when ≤ b.when) history,
    calculateStatusDurations statusHistory toDate⟩

/-! ### Conservation of status durations (part_008) -/

/-- A status history item carries a timestamp lying inside
`[t0, toDate]`. -/
def statusEventInRange (t0 toDate : Nat) (h : P8HistoryItem) : Bool :=
  match h.when with
  | some t => decide (t0 ≤ t) && decide (t ≤ toDate)
  | none => false

/-- Sum invariant of the duration walk: over chronologically ordered events
between `last` and `toDate`, the accumulated durations total exactly the
working time from `last` to `toDate` (calendar window contained in the
day). -/
theorem p8Walk_sum (cfg : WorkingTimeConfig) (hE : cfg.endHour ≤ 24) (now toDate : Nat) :
    ∀ (sh : List P8HistoryItem) (last : Nat) (cur : String) (durs : List StatusDuration),
      (∀ h ∈ sh, last ≤ p8EventKey now h ∧ p8EventKey now h ≤ toDate) →
      List.Pairwise (fun a b => p8EventKey now a ≤ p8EventKey now b) sh →
      sumDurations (p8Walk cfg now toDate last cur durs sh) =
        sumDurations durs + calculateWorkingTime last toDate cfg := by
  intro sh
  induction sh with
  | nil =>
    intro last cur durs _ _
    simp only [p8Walk]
    split_ifs with hd
    · rw [sumDurations_addDuration]
    · omega
  | cons ev rest ih =>
    intro last cur durs hall hpw
    have hev := hall ev (List.mem_cons_self ev rest)
    have hallrest : ∀ h ∈ rest,
        p8EventKey now ev ≤ p8EventKey now h ∧ p8EventKey now h ≤ toDate := by
      intro h hmem
      exact ⟨(List.rel_of_pairwise_cons hpw) hmem, (hall h (List.mem_cons_of_mem _ hmem)).2⟩
    simp only [p8Walk]
    rw [ih (p8EventKey now ev) (p8NextStatus ev cur) _ hallrest (List.Pairwise.of_cons hpw)]
    have hadd : calculateWorkingTime last toDate cfg =
        calculateWorkingTime last (p8EventKey now ev) cfg +
          calculateWorkingTime (p8EventKey now ev) toDate cfg :=
      calculateWorkingTime_add cfg hE hev.1 hev.2
    split_ifs with hd
    · rw [sumDurations_addDuration]
      omega
    · omega

/-- The sorted status subsequence is pairwise ordered on its walk keys. -/
theorem p8StatusHistory_pairwise (now : Nat) (history : List P8HistoryItem) :
    List.Pairwise (fun a b => p8EventKey now a ≤ p8EventKey now b)
      (p8StatusHistory now history) := by
  haveI : IsTotal P8HistoryItem (fun a b => p8EventKey now a ≤ p8EventKey now b) :=
    ⟨fun a b => Nat.le_total _ _⟩
  haveI : IsTrans P8HistoryItem (fun a b => p8EventKey now a ≤ p8EventKey now b) :=
    ⟨fun _ _ _ hab hbc => Nat.le_trans hab hbc⟩
  exact List.sorted_insertionSort _ _

/-- C4 (amended): conservation law of `part_008`'s `processItem`.  If the
item's `createdAt` is present, every status-typed history event carries a
timestamp inside `[createdAt, reportToDate]`, and the calendar's window
stays inside the day, then the status durations total exactly the working
time elapsed from `createdAt` to `reportToDate` — no gaps, no double
counting, including recurring statuses accumulated into one entry. -/
theorem C4_statusDurations_conserve_workingTime (cfg : WorkingTimeConfig)
    (now toDate t0 : Nat) (content : P8Content) (events : List P8TimelineEvent)
    (hE : cfg.endHour ≤ 24) (hc : content.createdAt = some t0)
    (hs : ∀ h ∈ events.filterMap p8HistoryOfEvent, h.type = "status" →
      statusEventInRange t0 toDate h = true) :
    sumDurations (processItemP8 cfg now toDate content events).statusDurations =
      calculateWorkingTime t0 toDate cfg := by
  have hall : ∀ h ∈ p8StatusHistory now
      (if content.isIssue then events.filterMap p8HistoryOfEvent else []),
      t0 ≤ p8EventKey now h ∧ p8EventKey now h ≤ toDate := by
    intro h hmem
    rw [p8StatusHistory, List.mem_insertionSort, List.mem_filter] at hmem
    have hmemh : h ∈ events.filterMap p8HistoryOfEvent := by
      cases hiss : content.isIssue
      · rw [hiss] at hmem
        simp at hmem
      · rw [hiss] at hmem
        exact hmem.1
    have htype : h.type = "status" := by
      have := hmem.2
      simpa using this
    have hrange := hs h hmemh htype
    unfold statusEventInRange at hrange
    cases hwhen : h.when with
    | none => rw [hwhen] at hrange; simp at hrange
    | some t =>
      rw [hwhen] at hrange
      simp only [Bool.and_eq_true, decide_eq_true_eq] at hrange
      unfold p8EventKey
      rw [hwhen]
      exact hrange
  simp only [processItemP8, hc]
  rw [p8Walk_sum cfg hE now toDate _ t0 _ [] hall (p8StatusHistory_pairwise now _)]
  simp [sumDurations]

/-- Monday 1970-01-05, 09:00 UTC. -/
def monday0900 : Nat := 4 * msPerDay + 9 * msPerHour

/-- Monday 1970-01-05, 12:00 UTC. -/
def monday1200 : Nat := 4 * msPerDay + 12 * msPerHour

/-- Monday 1970-01-05, 17:00 UTC. -/
def monday1700 : Nat := 4 * msPerDay + 17 * msPerHour

theorem C4_statusDurations_conserve_workingTime_witness :
    sumDurations (processItemP8 defaultWorkingConfig 0 monday1700
        ⟨true, some monday0900, none⟩
        [⟨some "MovedColumnsInProjectEvent", some monday1200, some "alice", none, none,
          some "In Progress", none, none⟩]).statusDurations =
      calculateWorkingTime monday0900 monday1700 defaultWorkingConfig :=
  C4_statusDurations_conserve_workingTime defaultWorkingConfig 0 monday1700 monday0900
    ⟨true, some monday0900, none⟩ _ (by decide) rfl (by decide)

/-- C4 counterexample, against the core processor cited by the claim:
`issue-processor.ts` never populates `statusHistory`, so `processItem`'s
status durations are always empty and total 0, while the working time
elapsed from the entity's opening (Monday 09:00) to the cutoff
(Monday 17:00) is 8 hours — the conservation law fails there. -/
theorem C4_counterexample_core_processor :
    sumDurations (processItemIP monday1700
        [⟨some "ClosedEvent", some monday1200, some "bob", none, none⟩]).statusDurations = 0 ∧
    calculateWorkingTime monday0900 monday1700 defaultWorkingConfig = 8 * msPerHour ∧
    (0 : Nat) ≠ 8 * msPerHour := by decide

/-! ### Malformed / unknown event handling (C9) -/

/-- The event types the core processor's `switch` recognizes. -/
def ipKnownTypenames : List String :=
  ["ClosedEvent", "ReopenedEvent", "LabeledEvent", "UnlabeledEvent",
   "AssignedEvent", "UnassignedEvent"]

/-- The event types `part_008`'s `if`/`else if` chain recognizes. -/
def p8KnownTypenames : List String :=
  ["MovedColumnsInProjectEvent", "LabeledEvent", "ClosedEvent", "ReopenedEvent",
   "AssignedEvent", "UnassignedEvent", "ProjectV2ItemStatusChangedEvent"]

/-- An event the core processor must drop: falsy `__typename`, missing
`createdAt`, or unrecognized type. -/
def ipUnrecognizedOrMalformed (e : IPEvent) : Bool :=
  match e.typename, e.createdAt with
  | none, _ => true
  | _, none => true
  | some ty, some _ => ty == "" || !(ipKnownTypenames.contains ty)

/-- An event `part_008`'s chain skips: missing or unrecognized
`__typename`. -/
def p8UnknownTypename (e : P8TimelineEvent) : Bool :=
  match e.typename with
  | none => true
  | some ty => !(p8KnownTypenames.contains ty)

theorem ipDispatch_eq_none (ty : String) (t : Nat) (e : IPEvent)
    (h : ¬ ty ∈ ipKnownTypenames) : ipDispatch ty t e = none := by
  unfold ipDispatch
  split <;> simp_all [ipKnownTypenames]

theorem processTimelineEvent_eq_none (e : IPEvent)
    (h : ipUnrecognizedOrMalformed e = true) : processTimelineEvent e = none := by
  unfold processTimelineEvent
  cases hty : e.typename with
  | none => rfl
  | some ty =>
    cases hca : e.createdAt with
    | none => rfl
    | some t =>
      unfold ipUnrecognizedOrMalformed at h
      rw [hty, hca] at h
      simp only [Bool.or_eq_true, beq_iff_eq, Bool.not_eq_eq_eq_not, Bool.not_true,
        List.elem_eq_mem, decide_eq_false_iff_not] at h
      show (if ty = "" then none else ipDispatch ty t e) = none
      rcases h with h | h
      · rw [if_pos h]
      · by_cases hempty : ty = ""
        · rw [if_pos hempty]
        · rw [if_neg hempty]
          exact ipDispatch_eq_none ty t e h

theorem p8HistoryOfEvent_eq_none (e : P8TimelineEvent)
    (h : p8UnknownTypename e = true) : p8HistoryOfEvent e = none := by
  unfold p8HistoryOfEvent
  cases hty : e.typename with
  | none => rfl
  | some ty =>
    unfold p8UnknownTypename at h
    rw [hty] at h
    simp only [Bool.not_eq_eq_eq_not, Bool.not_true, List.elem_eq_mem,
      decide_eq_false_iff_not] at h
    split <;> simp_all [p8KnownTypenames]

/-- C9 (amended): events with a missing/empty `__typename`, a missing
timestamp, or an unrecognized type are silently dropped by the core
processor's `processTimelineEvent`, and inserting such an event anywhere
leaves `processItem`'s output unchanged; `part_008`'s `processItem`
likewise drops and isolates events with a missing or unrecognized
`__typename` (but not, per the counterexample, recognized events with a
missing timestamp). -/
theorem C9_malformed_events_dropped_and_isolated :
    (∀ e : IPEvent, ipUnrecognizedOrMalformed e = true → processTimelineEvent e = none) ∧
    (∀ (toDate : Nat) (xs ys : List IPEvent) (bad : IPEvent),
      ipUnrecognizedOrMalformed bad = true →
      processItemIP toDate (xs ++ bad :: ys) = processItemIP toDate (xs ++ ys)) ∧
    (∀ (cfg : WorkingTimeConfig) (now toDate : Nat) (content : P8Content)
      (xs ys : List P8TimelineEvent) (bad : P8TimelineEvent),
      p8UnknownTypename bad = true →
      processItemP8 cfg now toDate content (xs ++ bad :: ys) =
        processItemP8 cfg now toDate content (xs ++ ys)) := by
  refine ⟨processTimelineEvent_eq_none, ?_, ?_⟩
  · intro toDate xs ys bad hbad
    have hnone := processTimelineEvent_eq_none bad hbad
    unfold processItemIP
    rw [List.filterMap_append, List.filterMap_cons, hnone, ← List.filterMap_append]
  · intro cfg now toDate content xs ys bad hbad
    have hnone := p8HistoryOfEvent_eq_none bad hbad
    unfold processItemP8
    rw [List.filterMap_append, List.filterMap_cons, hnone, ← List.filterMap_append]

/-- C9 counterexample: a recognized event (`ClosedEvent`) with a missing
timestamp is NOT dropped by `part_008`'s `processItem` — it lands in the
history (with an undefined `when`), so inserting it changes the processed
output for the same remaining (empty) event list. -/
theorem C9_counterexample_p8_missing_timestamp :
    (processItemP8 defaultWorkingConfig 0 0 ⟨true, some 0, none⟩
        [⟨some "ClosedEvent", none, none, none, none, none, none, none⟩]).history ≠
      (processItemP8 defaultWorkingConfig 0 0 ⟨true, some 0, none⟩ []).history := by decide

theorem C9_malformed_events_witness :
    processTimelineEvent ⟨some "FancyNewEvent", some 5, some "alice", none, none⟩ = none ∧
    processItemIP 10 ([⟨some "ClosedEvent", some 3, none, none, none⟩] ++
        ⟨none, some 4, none, none, none⟩ :: []) =
      processItemIP 10 ([⟨some "ClosedEvent", some 3, none, none, none⟩] ++ []) ∧
    processItemP8 defaultWorkingConfig 0 9 ⟨true, some 1, none⟩
        ([] ++ ⟨some "CrossReferencedEvent", some 2, none, none, none, none, none, none⟩ :: []) =
      processItemP8 defaultWorkingConfig 0 9 ⟨true, some 1, none⟩ ([] ++ []) :=
  ⟨C9_malformed_events_dropped_and_isolated.1 _ (by decide),
   C9_malformed_events_dropped_and_isolated.2.1 10 _ _ _ (by decide),
   C9_malformed_events_dropped_and_isolated.2.2 defaultWorkingConfig 0 9 _ _ _ _ (by decide)⟩

/-! ### The PR processor (`src/cli/src/core/pr-processor.ts`) -/

/-- JavaScript `String.prototype.toLowerCase` (ASCII range). -/
def jsToLower (s : String) : String := String.mk (s.data.map Char.toLower)

/-- A review node of the GraphQL `PullRequestNode`. -/
structure ReviewNode where
  author : Option String
  createdAt : Nat
  state : String
  body : Option String
deriving DecidableEq

/-- `ReviewInfo` as `processPR` builds it (state lower-cased). -/
structure ReviewInfo where
  who : String
  when : Nat
  state : String
  body : String
deriving DecidableEq

/-- The review extraction loop of `processPR`: reviews with a truthy author
login, state lower-cased, body defaulted to the empty string. -/
def prReviewInfos (nodes : List ReviewNode) : List ReviewInfo :=
  nodes.filterMap (fun r =>
    match r.author with
    | some login =>
      if login = "" then none
      else some ⟨login, r.createdAt, jsToLower r.state, jsOrStr r.body ""⟩
    | none => none)

/-- The review-related outputs of `processPR`; the comment extraction and
the identity fields copied from the input node are omitted from the model. -/
structure PRInfoCore where
  reviews : List ReviewInfo
  isRequestChanges : Bool
  requestedChangesBy : Option (String × Nat)
deriving DecidableEq

/-- `processPR` from `src/cli/src/core/pr-processor.ts` (review part):
sorts the reviews chronologically, then flags `isRequestChanges` iff ANY
review ever had state `changes_requested`/`request_changes`, attributing it
to the earliest such review. -/
def processPR (nodes : List ReviewNode) : PRInfoCore :=
  let reviews := List.insertionSort (fun a b => a.when ≤ b.when) (prReviewInfos nodes)
  let requestChangesReviews := reviews.filter (fun r =>
    r.state == "changes_requested" || r.state == "request_changes")
  { reviews := reviews
    isRequestChanges := decide (0 < requestChangesReviews.length)
    requestedChangesBy :=
      match requestChangesReviews with
      | [] => none
      | x :: _ => some (x.who, x.when) }

/-- The state of a reviewer's chronologically last review in an
already-sorted review list. -/
def reviewerLatestState (reviews : List ReviewInfo) (who : String) : Option String :=
  ((reviews.filter (fun r => r.who == who)).getLast?).map (·.state)

/-- Specification-side definition, following the spec's words for
comparison with `processPR`: the request-changes flag is active iff some
reviewer's most recent review state is "changes requested" (a later
approval or comment from the same reviewer clears their block). -/
def specRequestChangesActive (reviews : List ReviewInfo) : Bool :=
  reviews.any (fun r =>
    reviewerLatestState reviews r.who == some "changes_requested" ||
    reviewerLatestState reviews r.who == some "request_changes")

/-- C1, evaluated at the failing input: reviewer alice requests changes and
later approves; `processPR` still reports `isRequestChanges = true`, while
the per-reviewer-latest semantics stated by the spec (and implemented in
the `fetch-prs` command) yields `false`. -/
theorem C1_processPR_ignores_later_approval :
    (processPR [⟨some "alice", 100, "CHANGES_REQUESTED", none⟩,
        ⟨some "alice", 200, "APPROVED", none⟩]).isRequestChanges = true ∧
    specRequestChangesActive
      (processPR [⟨some "alice", 100, "CHANGES_REQUESTED", none⟩,
        ⟨some "alice", 200, "APPROVED", none⟩]).reviews = false := by decide

/-! ### Connector window filtering (C5) -/

/-- The `validHistory` filter of `IssuesConnector.fetch` (lines 74–77):
`eventTime.isAfter(fromDate) && eventTime.isBefore(toDate)`. -/
def issuesValidHistory (fromT toT : Nat) (history : List IPHistoryItem) :
    List IPHistoryItem :=
  history.filter (fun e => decide (fromT < e.when) && decide (e.when < toT))

/-- `CommentInfo` — `{ who, when, text }`. -/
structure CommentInfo where
  who : String
  when : Nat
  text : String
deriving DecidableEq

/-- The comment window filter of `PRsConnector.fetch`:
`dayjs(comment.when).isAfter(fromDate) && ...isBefore(toDate)`. -/
def prsWindowComments (fromT toT : Nat) (comments : List CommentInfo) :
    List CommentInfo :=
  comments.filter (fun c => decide (fromT < c.when) && decide (c.when < toT))

/-- The review window filter of `PRsConnector.fetch`. -/
def prsWindowReviews (fromT toT : Nat) (reviews : List ReviewInfo) :
    List ReviewInfo :=
  reviews.filter (fun r => decide (fromT < r.when) && decide (r.when < toT))

/-- C5 counterexample: an event stamped exactly at `window.from` satisfies
the claim's half-open membership `from ≤ when < to`, yet the connector's
filter drops it — the implemented window is open at both ends. -/
theorem C5_counterexample_event_at_from_dropped :
    issuesValidHistory 100 200 [⟨"status", "moved", none, "u", 100, none⟩] = [] ∧
    ((100 : Nat) ≤ 100 ∧ (100 : Nat) < 200) := by decide

/-- C5 (amended): each connector emits a record for a history item, comment
or review iff its timestamp lies strictly inside the window —
`from < when < to`, an open interval, so events at `to` AND at `from` are
excluded; in particular adjacent windows `[t0,t1)`/`[t1,t2)` never both
emit an event stamped `t1` (neither does). -/
theorem C5_window_is_open_interval :
    (∀ (f t : Nat) (hist : List IPHistoryItem) (e : IPHistoryItem),
      e ∈ issuesValidHistory f t hist ↔ e ∈ hist ∧ f < e.when ∧ e.when < t) ∧
    (∀ (f t : Nat) (cs : List CommentInfo) (c : CommentInfo),
      c ∈ prsWindowComments f t cs ↔ c ∈ cs ∧ f < c.when ∧ c.when < t) ∧
    (∀ (f t : Nat) (rs : List ReviewInfo) (r : ReviewInfo),
      r ∈ prsWindowReviews f t rs ↔ r ∈ rs ∧ f < r.when ∧ r.when < t) ∧
    (∀ (t0 t1 t2 : Nat) (hist : List IPHistoryItem) (e : IPHistoryItem), e.when = t1 →
      e ∉ issuesValidHistory t0 t1 hist ∧ e ∉ issuesValidHistory t1 t2 hist) := by
  refine ⟨?_, ?_, ?_, ?_⟩
  · intro f t hist e
    simp [issuesValidHistory, List.mem_filter, and_assoc]
  · intro f t cs c
    simp [prsWindowComments, List.mem_filter, and_assoc]
  · intro f t rs r
    simp [prsWindowReviews, List.mem_filter, and_assoc]
  · intro t0 t1 t2 hist e he
    constructor
    · intro hmem
      rw [issuesValidHistory, List.mem_filter] at hmem
      have := hmem.2
      simp only [he, Bool.and_eq_true, decide_eq_true_eq] at this
      omega
    · intro hmem
      rw [issuesValidHistory, List.mem_filter] at hmem
      have := hmem.2
      simp only [he, Bool.and_eq_true, decide_eq_true_eq] at this
      omega

theorem C5_window_is_open_interval_witness :
    (⟨"status", "moved", none, "u", 150, none⟩ : IPHistoryItem) ∈
      issuesValidHistory 100 200 [⟨"status", "moved", none, "u", 150, none⟩] ∧
    (⟨"status", "moved", none, "u", 100, none⟩ : IPHistoryItem) ∉
      issuesValidHistory 50 100 [⟨"status", "moved", none, "u", 100, none⟩] ∧
    (⟨"status", "moved", none, "u", 100, none⟩ : IPHistoryItem) ∉
      issuesValidHistory 100 200 [⟨"status", "moved", none, "u", 100, none⟩] := by
  refine ⟨?_, ?_, ?_⟩
  · exact (C5_window_is_open_interval.1 100 200 _ _).mpr (by decide)
  · exact (C5_window_is_open_interval.2.2.2 50 100 200 _ _ rfl).1
  · exact (C5_window_is_open_interval.2.2.2 100 100 200 _ _ rfl).2

/-! ### The deduplication key (`src/unnamed/part_005`) -/

/-- JavaScript `s.startsWith(p)`. -/
def strStartsWith (s p : String) : Bool := p.data.isPrefixOf s.data

/-- Hex digit character (lowercase). -/
def hexDigitChar (n : Nat) : Char :=
  if n < 10 then Char.ofNat (48 + n) else Char.ofNat (87 + n)

/-- Big-endian fixed-width hex rendering of a number. -/
def natToHexChars : Nat → Nat → List Char
  | 0, _ => []
  | w + 1, n => natToHexChars w (n / 16) ++ [hexDigitChar (n % 16)]

/-- Deterministic stand-in for Node's `crypto` SHA-256 hex digest (a
platform library call, not code of this repository): the development relies
only on it being a pure function of the input with a 64-hex-character
output, which this simple 256-bit rolling digest also guarantees. -/
def sha256Hex (s : String) : String :=
  String.mk (natToHexChars 64
    (s.data.foldl (fun a c => (a * 1315423911 + c.toNat) % (2 ^ 256)) 5381))

/-- JavaScript `s.substring(0, n)`. -/
def strTake (s : String) (n : Nat) : String := String.mk (s.data.take n)

/-- `new Date(t).toISOString().split('T')[0]` — the `YYYY-MM-DD` part. -/
def isoDateStr (t : Nat) : String := formatDay (dayIndex t)

/-- `new Date(t).toISOString().split('T')[1].split('.')[0]` — `HH:mm:ss`. -/
def isoTimeStr (t : Nat) : String :=
  let ms := t % msPerDay
  pad2 (ms / msPerHour) ++ ":" ++ pad2 (ms % msPerHour / 60000) ++ ":" ++
    pad2 (ms % 60000 / 1000)

/-- The `meta` fields `generateActivityKey` consults.  Numeric values
(issue/PR numbers) are carried as their decimal string rendering, which is
how they appear in the template literal. -/
structure ActivityMeta where
  hash : Option String
  issueNumber : Option String
  prNumber : Option String
  commentId : Option String
  reviewId : Option String
  action : Option String
  value : Option String
deriving DecidableEq

/-- `UserActivity` as `generateActivityKey` reads it. -/
structure UserActivity where
  type : String
  author : String
  date : Nat
  repository : String
  url : Option String
  title : Option String
  description : Option String
  meta : ActivityMeta
deriving DecidableEq

/-- `generateActivityKey` from `src/unnamed/part_005`: composite
`type:author:date time:repository:uniqueId[:action[:valueHash]]` key; when
it exceeds 500 characters the variable tail is replaced by a 32-character
content hash appended to the untouched fixed prefix. -/
def generateActivityKey (a : UserActivity) : String :=
  let uniqueId := jsFirstTruthy [a.meta.hash, a.meta.issueNumber, a.meta.prNumber,
    a.meta.commentId, a.meta.reviewId, a.url, a.title] "unknown"
  let dateStr := isoDateStr a.date
  let timeStr := isoTimeStr a.date
  let actionSuffix :=
    if strStartsWith a.type "issue_" && truthyStr a.meta.action then
      let action := a.meta.action.getD ""
      let value := jsOrStr a.meta.value ""
      let valueHash := if value = "" then "" else strTake (sha256Hex value) 8
      ":" ++ action ++ (if valueHash = "" then "" else ":" ++ valueHash)
    else ""
  let key := a.type ++ ":" ++ a.author ++ ":" ++ dateStr ++ " " ++ timeStr ++ ":" ++
    a.repository ++ ":" ++ uniqueId ++ actionSuffix
  if 500 < key.length then
    let essential := a.type ++ ":" ++ a.author ++ ":" ++ dateStr ++ " " ++ timeStr ++ ":" ++
      a.repository ++ ":"
    let remaining := uniqueId ++ actionSuffix
    if 500 < essential.length + remaining.length then
      essential ++ strTake (sha256Hex remaining) 32
    else essential ++ strTake remaining (500 - essential.length)
  else key

/-- An otherwise-empty activity whose repository name is 500 characters. -/
def longRepoActivity : UserActivity :=
  ⟨"a", "b", 0, String.mk (List.replicate 500 'r'), none, none, none,
    ⟨none, none, none, none, none, none, none⟩⟩

set_option maxRecDepth 10000 in
/-- C6, evaluated at the failing input: with a 500-character repository the
base key (532 chars) exceeds the budget, the tail is hashed — and the
returned key is still 557 characters long, because the fixed prefix alone
already exceeds 500; the documented "≤ 500 characters" contract fails. -/
theorem C6_key_exceeds_500_on_long_prefix :
    500 < (generateActivityKey longRepoActivity).length ∧
    (generateActivityKey longRepoActivity).length = 557 := by decide

/-- A minimal activity whose only distinguishing field is its URL. -/
def urlOnlyActivity (u : String) : UserActivity :=
  ⟨"t", "au", 0, "repo", some u, none, none,
    ⟨none, none, none, none, none, none, none⟩⟩

/-- C7 counterexample: two activities equal on type, author, date,
repository and meta — but with different URLs — receive different keys,
because with no meta identifier the key falls back to
`activity.url || activity.title || 'unknown'`. -/
theorem C7_counterexample_url_fallback :
    (urlOnlyActivity "urlA").type = (urlOnlyActivity "urlB").type ∧
    (urlOnlyActivity "urlA").author = (urlOnlyActivity "urlB").author ∧
    (urlOnlyActivity "urlA").date = (urlOnlyActivity "urlB").date ∧
    (urlOnlyActivity "urlA").repository = (urlOnlyActivity "urlB").repository ∧
    (urlOnlyActivity "urlA").meta = (urlOnlyActivity "urlB").meta ∧
    generateActivityKey (urlOnlyActivity "urlA") ≠
      generateActivityKey (urlOnlyActivity "urlB") := by decide

/-- C7 (amended): `generateActivityKey` is a pure function of type, author,
date, repository, meta, url and title — two records agreeing on those seven
fields (url and title enter through the uniqueId fallback chain) receive
byte-identical keys, in one run or across runs. -/
theorem C7_key_deterministic_on_identity_fields (a b : UserActivity)
    (h1 : a.type = b.type) (h2 : a.author = b.author) (h3 : a.date = b.date)
    (h4 : a.repository = b.repository) (h5 : a.meta = b.meta)
    (h6 : a.url = b.url) (h7 : a.title = b.title) :
    generateActivityKey a = generateActivityKey b := by
  obtain ⟨t, au, d, r, u, ti, de, m⟩ := a
  obtain ⟨t', au', d', r', u', ti', de', m'⟩ := b
  simp only at h1 h2 h3 h4 h5 h6 h7
  subst h1 h2 h3 h4 h5 h6 h7
  rfl

theorem C7_key_deterministic_on_identity_fields_witness :
    generateActivityKey ⟨"t", "au", 0, "r", none, none, some "run one",
        ⟨none, none, some "7", none, none, none, none⟩⟩ =
      generateActivityKey ⟨"t", "au", 0, "r", none, none, some "run two",
        ⟨none, none, some "7", none, none, none, none⟩⟩ :=
  C7_key_deterministic_on_identity_fields _ _ rfl rfl rfl rfl rfl rfl rfl
